import Mathlib

/-!
# Verification of the road simulation and scanline rasterizer of `joyride-rust`

Shallow embedding of `src/road.rs` (plus the configuration constants of
`src/joyride.rs`).  `f32` arithmetic is modelled by exact rational
arithmetic (`ℚ`); decimal literals of the source become the corresponding
exact rationals.  `usize`/`i32` become `Nat`/`ℤ`.  Fixed-size arrays
(`Box<[f32; N]>`) become `List`s read through `List.getD`; the graphics
handles (`render_tex`, `road_sprite`) carried by `RoadStatic` play no part
in any table computation and are omitted.
-/

set_option linter.unusedVariables false

namespace Joyride

/-! ## Configuration constants (src/joyride.rs, src/road.rs) -/

def FIELD_WIDTH : Nat := 320

def FIELD_HEIGHT : Nat := 240

/-- `ROAD_DISTANCE`: number of depth-table rows. -/
def ROAD_DISTANCE : Nat := 110

/-- `MAX_ROAD_DRAW_HEIGHT`: maximum on-screen height of the drawn road. -/
def MAX_ROAD_DRAW_HEIGHT : Nat := 170

def NUM_ROAD_PIXELS : Nat := FIELD_WIDTH * MAX_ROAD_DRAW_HEIGHT

/-- `CONVERGE_DISTANCE = 113.4`. -/
def CONVERGE_DISTANCE : ℚ := 1134 / 10

/-- `CAMERA_HEIGHT = 75.0`. -/
def CAMERA_HEIGHT : ℚ := 75

/-- `COLOR_SWITCH_Z_INTERVAL = 0.5`. -/
def COLOR_SWITCH_Z_INTERVAL : ℚ := 1 / 2

/-- `SEGMENT_LENGTH = 15.0`. -/
def SEGMENT_LENGTH : ℚ := 15

def PAVEMENT_WIDTH : ℚ := 125

def CENTER_LINE_WIDTH : ℚ := 2

def RUMBLE_STRIP_WIDTH : ℚ := 20

/-- `DEBUG_VIS_SEGMENTS`: debug flag, set to `true` in the source. -/
def DEBUG_VIS_SEGMENTS : Bool := true

/-! ## Rust primitive operations used by the source -/

/-- `f32::abs`. -/
def rustAbs (q : ℚ) : ℚ := if q < 0 then -q else q

/-- `f32::max` (no NaN in the rational model). -/
def rustMax (a b : ℚ) : ℚ := if a ≤ b then b else a

/-- Truncation toward zero, as performed by `i32::conv_trunc`/`usize::conv_trunc`
on an `f32` value (`easy_cast` panics when a `usize` conversion sees a negative
value; every use in the source feeds it a non-negative quantity, where
truncation coincides with `Int.floor`). -/
def rustTruncZ (q : ℚ) : ℤ := if q < 0 then -⌊-q⌋ else ⌊q⌋

/-- Truncation to `usize` of a non-negative `f32` (`usize::conv_trunc`). -/
def rustTruncNat (q : ℚ) : Nat := (rustTruncZ q).toNat

/-! ## Data model (src/road.rs) -/

structure QuadraticCoefficients where
  x2 : ℚ
  x : ℚ

/-- `CURVE_COEFF = { x2: 1.0, x: 0.0 }`. -/
def CURVE_COEFF : QuadraticCoefficients := ⟨1, 0⟩

/-- `HILL_COEFF = { x2: 0.5, x: 0.5 }`. -/
def HILL_COEFF : QuadraticCoefficients := ⟨1 / 2, 1 / 2⟩

/-- `ShiftableColor(u32, u32)`: a pair of packed RGBA colors. -/
structure ShiftableColor where
  a : Nat
  b : Nat

structure RoadColors where
  offroad : ShiftableColor
  rumble_strip : ShiftableColor
  pavement : ShiftableColor
  center_line : Nat

structure RoadSegment where
  curve : ℚ
  hill : ℚ

structure RoadStatic where
  z_map : List ℚ
  scale_map : List ℚ
  colors : RoadColors

structure RoadDynamic where
  draw_height : Nat
  x_map : List ℚ
  y_map : List Nat
  x_offset : ℚ
  z_offset : ℚ
  seg_idx : Nat
  seg_pos : ℚ
  segs : List RoadSegment

/-! ## Static table construction (`build_road_static`)

The source fills `z_map`/`scale_map` in one loop over `i < ROAD_DISTANCE`:
`screen_y = FIELD_HEIGHT - i`, `converge_y = FIELD_HEIGHT - CONVERGE_DISTANCE`,
`z = CAMERA_HEIGHT / (screen_y - converge_y)`, `scale = 1 / z`. -/

def z_map_entry (i : Nat) : ℚ :=
  CAMERA_HEIGHT / (((FIELD_HEIGHT : ℚ) - (i : ℚ)) - ((FIELD_HEIGHT : ℚ) - CONVERGE_DISTANCE))

def z_map_game : List ℚ := (List.range ROAD_DISTANCE).map z_map_entry

def scale_map_game : List ℚ := z_map_game.map (fun z => 1 / z)

/-- The color palette authored in `build_road_static`. -/
def road_colors : RoadColors :=
  { center_line := 0xFFFFFFFF
    offroad := ⟨0xFFFF91FF, 0xDADA91FF⟩
    rumble_strip := ⟨0xFFFFFFFF, 0xFF0000FF⟩
    pavement := ⟨0x303030FF, 0x333333FF⟩ }

/-- The `RoadStatic` value built at startup (texture/sprite handles omitted). -/
def build_road_static : RoadStatic :=
  { z_map := z_map_game, scale_map := scale_map_game, colors := road_colors }

/-- `build_road_dynamic`. -/
def build_road_dynamic : RoadDynamic :=
  { x_map := List.replicate ROAD_DISTANCE ((FIELD_WIDTH : ℚ) * (1 / 2))
    y_map := List.replicate MAX_ROAD_DRAW_HEIGHT 0
    draw_height := ROAD_DISTANCE
    x_offset := 0
    z_offset := 0
    seg_idx := 0
    seg_pos := 0
    segs := [⟨0, 0⟩, ⟨0, 0⟩] }

/-! ## Road position tracker (`RoadDynamic::advance_z`, `get_seg_curvature`) -/

/-- `f32 %` (remainder with the dividend's sign). -/
def rustRem (a b : ℚ) : ℚ := a - b * (rustTruncZ (a / b) : ℚ)

/-- `RoadDynamic::advance_z`.  The source `assert!(advance_amount_z >= 0.0)` is
modelled by the hypotheses of the theorems below; `usize::conv_trunc` of the
already-floored `num_advance_segs` is `Int.toNat` of the floor. -/
def advance_z (dyn : RoadDynamic) (advance_amount_z : ℚ) : RoadDynamic :=
  let seg_pos := dyn.seg_pos + advance_amount_z
  let num_advance_segs : ℤ := ⌊seg_pos / SEGMENT_LENGTH⌋
  { dyn with
    seg_idx := dyn.seg_idx + num_advance_segs.toNat
    seg_pos := seg_pos - (num_advance_segs : ℚ) * SEGMENT_LENGTH
    z_offset := rustRem (dyn.z_offset + advance_amount_z) (COLOR_SWITCH_Z_INTERVAL * 2) }

/-- `get_bounded_seg`: `usize::clamp(idx, 0, segs.len() - 1)` then index.  (On an
empty list the source's `len() - 1` underflows and panics; callers guarantee a
non-empty list and our theorems carry that hypothesis.) -/
def get_bounded_seg (segs : List RoadSegment) (idx : Nat) : RoadSegment :=
  segs.getD (min idx (segs.length - 1)) ⟨0, 0⟩

/-- `RoadDynamic::get_seg_curvature`.  `usize::conv_floor` of a non-negative
`f32` is `Int.toNat ∘ Int.floor`. -/
def get_seg_curvature (dyn : RoadDynamic) (pos_offset : ℚ) : ℚ :=
  let seg_idx := dyn.seg_idx + (⌊(dyn.seg_pos + pos_offset) / SEGMENT_LENGTH⌋).toNat
  (get_bounded_seg dyn.segs seg_idx).curve

/-- `is_offroad`. -/
def is_offroad (road_static : RoadStatic) (road_dyn : RoadDynamic) : Bool :=
  rustAbs road_dyn.x_offset > (PAVEMENT_WIDTH + RUMBLE_STRIP_WIDTH) * road_static.scale_map.getD 0 0

/-! ## World-to-screen query (`get_draw_params_on_road`)

`slice::binary_search_by` with the result collapsed through
`unwrap_or_else(|x| x)`: the standard library's loop keeps a window
`[left, right)` with `mid = left + size / 2` (`size = right - left` at every
iteration head), answering `mid` on an exact comparison hit and `left` once
the window is empty.  The loop runs at most `len` iterations, so a fuel of
`len + 1` reproduces it exactly.  `d` stands in for the (never taken)
out-of-bounds read. -/

def binSearchGo {α : Type} [LinearOrder α] (xs : List α) (d : α) (target : α) :
    Nat → Nat → Nat → Nat
  | left, _, 0 => left
  | left, right, fuel + 1 =>
    if left < right then
      let mid := left + (right - left) / 2
      let x := xs.getD mid d
      if x < target then binSearchGo xs d target (mid + 1) right fuel
      else if target < x then binSearchGo xs d target left mid fuel
      else mid
    else left

def rust_binary_search {α : Type} [LinearOrder α] (xs : List α) (d : α) (target : α) : Nat :=
  binSearchGo xs d target 0 xs.length (xs.length + 1)

structure DrawParams where
  scale : ℚ
  draw_pos : ℚ × ℚ

/-- `converge_x`. -/
def converge_x (x_pos : ℚ) (road_map_idx : Nat) : ℚ :=
  x_pos * (1 - (road_map_idx : ℚ) / (ROAD_DISTANCE : ℚ))

/-- `get_draw_params_on_road`. -/
def get_draw_params_on_road (road_static : RoadStatic) (road_dyn : RoadDynamic)
    (x_pos z_pos : ℚ) : Option DrawParams :=
  let search_result_idx := rust_binary_search road_static.z_map 0 z_pos
  if search_result_idx = 0 ∨ ROAD_DISTANCE < search_result_idx then none
  else
    let map_idx := search_result_idx - 1
    let scale := road_static.scale_map.getD map_idx 0
    let result := rust_binary_search road_dyn.y_map 0 map_idx
    let y_map_idx := if 0 < result then result - 1 else result
    if road_dyn.draw_height < y_map_idx then none
    else
      some { scale := scale
             draw_pos := (road_dyn.x_map.getD map_idx 0 + converge_x x_pos map_idx,
                          (y_map_idx : ℚ)) }

/-! ## Table projector (`map_road_quadratic`)

The source keeps `cur_seg = get_bounded_seg(&segments, seg_idx)` in a local
that is refreshed exactly when `seg_idx` changes, so at every parameter read
`cur_seg = get_bounded_seg segments seg_idx`; the embedding re-reads it each
row. -/

def mapQuadGo (coeff : QuadraticCoefficients) (f : RoadSegment → ℚ)
    (segments : List RoadSegment) :
    List ℚ → ℚ → ℚ → ℚ → Nat → ℚ → List ℚ
  | [], _, _, _, _, _ => []
  | cur_z :: rest, cur_value, delta_value, last_z, seg_idx, seg_pos =>
    let delta_z := cur_z - last_z
    let seg_pos' := seg_pos + delta_z
    let seg_idx' := if SEGMENT_LENGTH < seg_pos' then seg_idx + 1 else seg_idx
    let p := f (get_bounded_seg segments seg_idx')
    let delta_value' := delta_value + (p * coeff.x2) * delta_z
    let cur_value' := cur_value + delta_value'
    (cur_value' + p * coeff.x) ::
      mapQuadGo coeff f segments rest cur_value' delta_value' cur_z seg_idx' seg_pos'

/-- `map_road_quadratic` (the loop seeds `last_z = road_static.z_map[0]`). -/
def map_road_quadratic (coeff : QuadraticCoefficients) (initial_value : ℚ)
    (seg_value_func : RoadSegment → ℚ) (road_static : RoadStatic)
    (segments : List RoadSegment) (seg_idx : Nat) (seg_pos : ℚ) : List ℚ :=
  mapQuadGo coeff seg_value_func segments road_static.z_map initial_value 0
    (road_static.z_map.getD 0 0) seg_idx seg_pos

/-- The inner-offset advance of the projector as the specification words it
(§4.3 step 3): "add `delta_depth` to the local in-segment offset; if it
exceeds the current segment's length, advance to the next segment (looping
this check, not just once ...)", reducing the offset by the segment length at
each advance.  Fuelled while-loop; the fuel passed by `mapQuadSpecGo` bounds
the number of whole segment lengths contained in the offset. -/
def segAdvanceGo : Nat → Nat → ℚ → Nat × ℚ
  | 0, seg_idx, seg_pos => (seg_idx, seg_pos)
  | fuel + 1, seg_idx, seg_pos =>
    if SEGMENT_LENGTH < seg_pos then segAdvanceGo fuel (seg_idx + 1) (seg_pos - SEGMENT_LENGTH)
    else (seg_idx, seg_pos)

/-- The projector loop as the specification words it — identical to
`mapQuadGo` except that the segment check loops and reduces the offset.
Written from the spec's words, for comparison with the source's
`map_road_quadratic`. -/
def mapQuadSpecGo (coeff : QuadraticCoefficients) (f : RoadSegment → ℚ)
    (segments : List RoadSegment) :
    List ℚ → ℚ → ℚ → ℚ → Nat → ℚ → List ℚ
  | [], _, _, _, _, _ => []
  | cur_z :: rest, cur_value, delta_value, last_z, seg_idx, seg_pos =>
    let delta_z := cur_z - last_z
    let stepped := segAdvanceGo (rustTruncNat ((seg_pos + delta_z) / SEGMENT_LENGTH) + 1)
      seg_idx (seg_pos + delta_z)
    let p := f (get_bounded_seg segments stepped.1)
    let delta_value' := delta_value + (p * coeff.x2) * delta_z
    let cur_value' := cur_value + delta_value'
    (cur_value' + p * coeff.x) ::
      mapQuadSpecGo coeff f segments rest cur_value' delta_value' cur_z stepped.1 stepped.2

/-- The spec-worded table projector (see `mapQuadSpecGo`). -/
def map_road_quadratic_specmodel (coeff : QuadraticCoefficients) (initial_value : ℚ)
    (seg_value_func : RoadSegment → ℚ) (road_static : RoadStatic)
    (segments : List RoadSegment) (seg_idx : Nat) (seg_pos : ℚ) : List ℚ :=
  mapQuadSpecGo coeff seg_value_func segments road_static.z_map initial_value 0
    (road_static.z_map.getD 0 0) seg_idx seg_pos

/-- A six-row depth table (rows six world units apart) used to probe the
projector's segment tracking. -/
def probe_static : RoadStatic :=
  { z_map := [0, 6, 12, 18, 24, 30], scale_map := [], colors := road_colors }

/-- Three authored segments: straight, straight, then a hard curve. -/
def probe_segs : List RoadSegment := [⟨0, 0⟩, ⟨0, 0⟩, ⟨1000, 0⟩]

/-- `update_road_curvature`: the quadratic pass over the curve parameters,
then `x_map[i] += converge_x(x_offset, i)` for every row. -/
def update_road_curvature (road_static : RoadStatic) (road_dyn : RoadDynamic) : RoadDynamic :=
  let m := map_road_quadratic CURVE_COEFF ((FIELD_WIDTH : ℚ) * (1 / 2))
    (fun seg => seg.curve) road_static road_dyn.segs road_dyn.seg_idx road_dyn.seg_pos
  { road_dyn with
    x_map := List.zipWith (fun i x => x + converge_x road_dyn.x_offset i)
      (List.range m.length) m }

/-! ## Hill pass (`update_road_hills`)

The scanline loop of `update_road_hills`, with the fuel equal to
`MAX_ROAD_DRAW_HEIGHT - cur_line`: running out of fuel is exactly the loop
finishing all `MAX_ROAD_DRAW_HEIGHT` lines, leaving `draw_height` at its
initial `MAX_ROAD_DRAW_HEIGHT`.  Returns the written prefix of `y_map`
together with `draw_height`. -/

def hills_go (adv : List ℚ) : Nat → Nat → ℚ → List Nat × Nat
  | 0, cur_line, _ => ([], cur_line)
  | fuel + 1, cur_line, flt_map_idx =>
    let map_idx := rustTruncNat flt_map_idx
    if ROAD_DISTANCE ≤ map_idx then ([], cur_line)
    else
      let advancement := rustMax (adv.getD map_idx 0) (1 / 100000)
      let out := hills_go adv fuel (cur_line + 1) (flt_map_idx + advancement)
      (map_idx :: out.1, out.2)

/-- The hill pass writing `scratch_pad.y_advancement_map`. -/
def hill_advancement_map (road_static : RoadStatic) (road_dyn : RoadDynamic) : List ℚ :=
  map_road_quadratic HILL_COEFF 1 (fun seg => seg.hill) road_static
    road_dyn.segs road_dyn.seg_idx road_dyn.seg_pos

/-- `update_road_hills`: hill quadratic pass into the advancement table, then
the scanline walk; rows from `draw_height` on are filled with the sentinel
`ROAD_DISTANCE`. -/
def update_road_hills (road_static : RoadStatic) (road_dyn : RoadDynamic) : RoadDynamic :=
  let adv := hill_advancement_map road_static road_dyn
  let out := hills_go adv MAX_ROAD_DRAW_HEIGHT 0 0
  { road_dyn with
    draw_height := out.2
    y_map := out.1 ++ List.replicate (MAX_ROAD_DRAW_HEIGHT - out.2) ROAD_DISTANCE }

/-! ## Scanline rasterizer (`render_road`) -/

/-- `u32::from_current_into_big_endian` on the (little-endian) target: a
32-bit byte swap. -/
def bswap32 (c : Nat) : Nat :=
  (c % 256) * 16777216 + (c / 256 % 256) * 65536 + (c / 65536 % 256) * 256 + c / 16777216 % 256

/-- The `is_seg_boundary` computation of `render_road` (inlined in the
source); `usize::conv_trunc` on the non-negative quotients. -/
def is_seg_boundary (road_static : RoadStatic) (road_dyn : RoadDynamic) (map_idx : Nat) : Bool :=
  DEBUG_VIS_SEGMENTS && decide (0 < map_idx) &&
    decide (rustTruncNat ((road_static.z_map.getD map_idx 0 + road_dyn.seg_pos) / SEGMENT_LENGTH) ≠
      rustTruncNat ((road_static.z_map.getD (map_idx - 1) 0 + road_dyn.seg_pos) / SEGMENT_LENGTH))

/-- The color `render_road` writes at column `x` of a scanline whose mapped
depth row is the in-range `map_idx`. -/
def render_pixel (road_static : RoadStatic) (road_dyn : RoadDynamic) (map_idx : Nat)
    (x : ℚ) : Nat :=
  let colors := road_static.colors
  let road_z := road_static.z_map.getD map_idx 0
  let road_scale := road_static.scale_map.getD map_idx 0
  let num_color_switches := rustTruncZ ((road_z + road_dyn.z_offset) / COLOR_SWITCH_Z_INTERVAL)
  let shift_color := num_color_switches % 2 ≠ 0
  let road_center := road_dyn.x_map.getD map_idx 0
  let road_width := PAVEMENT_WIDTH * road_scale
  let center_line_width := CENTER_LINE_WIDTH * road_scale
  let rumble_width := RUMBLE_STRIP_WIDTH * road_scale
  let distance_from_center := rustAbs (x - road_center)
  let shiftable : ShiftableColor :=
    if distance_from_center ≤ center_line_width then ⟨colors.center_line, colors.pavement.b⟩
    else if distance_from_center ≤ road_width then colors.pavement
    else if distance_from_center ≤ road_width + rumble_width then colors.rumble_strip
    else colors.offroad
  let color :=
    if is_seg_boundary road_static road_dyn map_idx then 0x00FF00FF
    else if shift_color then shiftable.b
    else shiftable.a
  bswap32 color

/-- The band/phase classifier exactly as the specification words it: classify
`distance = |x - road_center|` into center-line, pavement, rumble-strip or
off-road by comparing against the scaled widths, then pick the tone by
`phase = floor((depth[row] + z_color_offset) / COLOR_SWITCH_Z_INTERVAL) mod 2`,
the center line shifting only to the pavement's alternate tone.  Written from
the spec's words, to be compared against `render_pixel` (from the source). -/
def spec_band_color (road_static : RoadStatic) (road_dyn : RoadDynamic) (map_idx : Nat)
    (x : ℚ) : Nat :=
  let scale := road_static.scale_map.getD map_idx 0
  let road_center := road_dyn.x_map.getD map_idx 0
  let distance := |x - road_center|
  let phase := ⌊(road_static.z_map.getD map_idx 0 + road_dyn.z_offset) /
    COLOR_SWITCH_Z_INTERVAL⌋ % 2
  if distance ≤ CENTER_LINE_WIDTH * scale then
    (if phase = 0 then road_static.colors.center_line else road_static.colors.pavement.b)
  else if distance ≤ PAVEMENT_WIDTH * scale then
    (if phase = 0 then road_static.colors.pavement.a else road_static.colors.pavement.b)
  else if distance ≤ (PAVEMENT_WIDTH + RUMBLE_STRIP_WIDTH) * scale then
    (if phase = 0 then road_static.colors.rumble_strip.a else road_static.colors.rumble_strip.b)
  else
    (if phase = 0 then road_static.colors.offroad.a else road_static.colors.offroad.b)

/-- One scanline of `render_road`: buffer line `cur_line` reads
`y_map[(MAX_ROAD_DRAW_HEIGHT - 1) - cur_line]`; a sentinel row is written
fully transparent (`0`), otherwise every column gets `render_pixel`. -/
def render_line (road_static : RoadStatic) (road_dyn : RoadDynamic) (cur_line x : Nat) : Nat :=
  let map_idx := road_dyn.y_map.getD ((MAX_ROAD_DRAW_HEIGHT - 1) - cur_line) 0
  if ROAD_DISTANCE ≤ map_idx then 0
  else render_pixel road_static road_dyn map_idx (x : ℚ)

/-- Overwriting the slice `[cur_line * FIELD_WIDTH, (cur_line + 1) * FIELD_WIDTH)`
of the (functionally modelled) pixel buffer: index `idx` belongs to that slice
exactly when `idx / FIELD_WIDTH = cur_line`. -/
def overwrite_line (buf : Nat → Nat) (cur_line : Nat) (px : Nat → Nat) : Nat → Nat :=
  fun idx => if idx / FIELD_WIDTH = cur_line then px (idx % FIELD_WIDTH) else buf idx

/-- `render_road`: line-by-line, starting from the bottom
(`(0..MAX_ROAD_DRAW_HEIGHT).rev()`), each line fully overwritten in the
persistent draw buffer `prev` carried over from the previous frame. -/
def render_road (road_static : RoadStatic) (road_dyn : RoadDynamic)
    (prev : Nat → Nat) : Nat → Nat :=
  (List.range MAX_ROAD_DRAW_HEIGHT).reverse.foldl
    (fun buf cur_line => overwrite_line buf cur_line (render_line road_static road_dyn cur_line))
    prev

/-! ## Distinguished states used by the theorems below -/

/-- The successive values of the loop-local `flt_map_idx` of
`update_road_hills` (before the loop breaks): one clamped advancement added
per written scanline. -/
def fltIter (adv : List ℚ) (flt : ℚ) : Nat → ℚ
  | 0 => flt
  | n + 1 =>
    fltIter adv flt n +
      rustMax (adv.getD (rustTruncNat (fltIter adv flt n)) 0) (1 / 100000)

/-- The per-frame dynamic state of the startup configuration: straight and
flat track, no lateral offset, after one curvature and one hill update. -/
def flat_dyn : RoadDynamic :=
  update_road_hills build_road_static (update_road_curvature build_road_static build_road_dynamic)

/-- A small dynamic state with two authored segments of known curvature. -/
def curvature_probe_dyn : RoadDynamic :=
  { build_road_dynamic with segs := [⟨1, 0⟩, ⟨2, 0⟩] }

/-- A dynamic state whose scanline map is entirely the sentinel. -/
def sentinel_probe_dyn : RoadDynamic :=
  { build_road_dynamic with y_map := List.replicate MAX_ROAD_DRAW_HEIGHT ROAD_DISTANCE }

/-! ## Basic facts about the static tables -/

theorem FIELD_WIDTH_eq : FIELD_WIDTH = 320 := rfl

theorem ROAD_DISTANCE_eq : ROAD_DISTANCE = 110 := rfl

theorem MAX_ROAD_DRAW_HEIGHT_eq : MAX_ROAD_DRAW_HEIGHT = 170 := rfl

theorem NUM_ROAD_PIXELS_eq : NUM_ROAD_PIXELS = 54400 := rfl

theorem rustAbs_eq_abs (q : ℚ) : rustAbs q = |q| := by
  unfold rustAbs
  split
  · rw [abs_of_neg (by assumption)]
  · rw [abs_of_nonneg (by linarith [not_lt.mp (by assumption)])]

theorem z_map_game_length : z_map_game.length = ROAD_DISTANCE := by
  simp [z_map_game]

theorem scale_map_game_length : scale_map_game.length = ROAD_DISTANCE := by
  simp [scale_map_game, z_map_game]

theorem z_map_game_getD {i : Nat} (h : i < ROAD_DISTANCE) :
    z_map_game.getD i 0 = z_map_entry i := by
  rw [List.getD_eq_getElem _ _ (by simpa [z_map_game_length] using h)]
  simp [z_map_game]

theorem scale_map_game_getD {i : Nat} (h : i < ROAD_DISTANCE) :
    scale_map_game.getD i 0 = 1 / z_map_entry i := by
  rw [List.getD_eq_getElem _ _ (by simpa [scale_map_game_length] using h)]
  simp [scale_map_game, z_map_game]

theorem z_map_entry_eq (i : Nat) : z_map_entry i = 75 / (567 / 5 - (i : ℚ)) := by
  unfold z_map_entry CAMERA_HEIGHT FIELD_HEIGHT CONVERGE_DISTANCE
  norm_num
  congr 1
  ring

theorem z_map_entry_pos {i : Nat} (h : i < ROAD_DISTANCE) : 0 < z_map_entry i := by
  have hi : (i : ℚ) ≤ 109 := by
    exact_mod_cast Nat.le_of_lt_succ (by simpa [ROAD_DISTANCE] using h)
  rw [z_map_entry_eq]
  exact div_pos (by norm_num) (by linarith)

theorem z_map_entry_lt {i j : Nat} (hij : i < j) (hj : j < ROAD_DISTANCE) :
    z_map_entry i < z_map_entry j := by
  have hjq : (j : ℚ) ≤ 109 := by
    exact_mod_cast Nat.le_of_lt_succ (by simpa [ROAD_DISTANCE] using hj)
  have hijq : (i : ℚ) < (j : ℚ) := by exact_mod_cast hij
  rw [z_map_entry_eq, z_map_entry_eq]
  have h1 : (0 : ℚ) < 567 / 5 - (j : ℚ) := by linarith
  exact div_lt_div_of_pos_left (by norm_num) h1 (by linarith)

/-- C4: the depth table is strictly increasing and the scale table strictly
decreasing, row by row, for the game's configuration (field height 240, camera
height 75, converge distance 113.4, 110 rows). -/
theorem claim4_table_monotonicity (i : Nat) (h : i + 1 < ROAD_DISTANCE) :
    z_map_game.getD i 0 < z_map_game.getD (i + 1) 0 ∧
    scale_map_game.getD i 0 > scale_map_game.getD (i + 1) 0 := by
  have hi : i < ROAD_DISTANCE := Nat.lt_of_succ_lt h
  have hz := z_map_entry_lt (Nat.lt_succ_self i) h
  constructor
  · rw [z_map_game_getD hi, z_map_game_getD h]
    exact hz
  · rw [scale_map_game_getD hi, scale_map_game_getD h]
    exact div_lt_div_of_pos_left (by norm_num) (z_map_entry_pos hi) hz

/-- Witness for C4 at row 0. -/
theorem claim4_table_monotonicity_witness :
    z_map_game.getD 0 0 < z_map_game.getD 1 0 ∧
    scale_map_game.getD 0 0 > scale_map_game.getD 1 0 :=
  claim4_table_monotonicity 0 (by norm_num [ROAD_DISTANCE])

/-- C10: `is_offroad` is true exactly when the absolute lateral offset exceeds
`(PAVEMENT_WIDTH + RUMBLE_STRIP_WIDTH) * scale_map[0]`, and it depends on the
dynamic state only through `x_offset` (curvature, hills and every other field
are ignored). -/
theorem claim10_is_offroad (st : RoadStatic) (dyn dyn' : RoadDynamic)
    (h : dyn.x_offset = dyn'.x_offset) :
    is_offroad st dyn = is_offroad st dyn' ∧
    (is_offroad st dyn = true ↔
      (PAVEMENT_WIDTH + RUMBLE_STRIP_WIDTH) * st.scale_map.getD 0 0 < |dyn.x_offset|) := by
  constructor
  · simp only [is_offroad, h]
  · simp only [is_offroad, rustAbs_eq_abs, gt_iff_lt, decide_eq_true_eq]

/-- Witness for C10: lateral offset 300 on the startup tables is off-road. -/
theorem claim10_is_offroad_witness :
    is_offroad build_road_static { build_road_dynamic with x_offset := 300 } = true := by
  rcases claim10_is_offroad build_road_static
    { build_road_dynamic with x_offset := 300 }
    { build_road_dynamic with x_offset := 300 } rfl with ⟨-, h2⟩
  rw [h2]
  show (PAVEMENT_WIDTH + RUMBLE_STRIP_WIDTH) * (build_road_static.scale_map.getD 0 0) < |(300 : ℚ)|
  have h0 : build_road_static.scale_map.getD 0 0 = 1 / z_map_entry 0 :=
    scale_map_game_getD (by norm_num [ROAD_DISTANCE])
  rw [h0, z_map_entry_eq]
  norm_num [PAVEMENT_WIDTH, RUMBLE_STRIP_WIDTH]

/-! ## C3: the forward-only advance -/

/-- C3: for `delta ≥ 0` and a well-formed in-segment offset,
`advance_z` adds exactly `delta` to `seg_idx * SEGMENT_LENGTH + seg_pos`
(crossing as many segments as needed) and keeps the offset in
`[0, SEGMENT_LENGTH)`. -/
theorem claim3_advance_z (dyn : RoadDynamic) (delta : ℚ) (hd : 0 ≤ delta)
    (h0 : 0 ≤ dyn.seg_pos) (h1 : dyn.seg_pos < SEGMENT_LENGTH) :
    ((advance_z dyn delta).seg_idx : ℚ) * SEGMENT_LENGTH + (advance_z dyn delta).seg_pos
      = (dyn.seg_idx : ℚ) * SEGMENT_LENGTH + dyn.seg_pos + delta ∧
    0 ≤ (advance_z dyn delta).seg_pos ∧
    (advance_z dyn delta).seg_pos < SEGMENT_LENGTH := by
  have hL : (0 : ℚ) < SEGMENT_LENGTH := by norm_num [SEGMENT_LENGTH]
  set S : ℚ := dyn.seg_pos + delta with hS
  have hSnn : 0 ≤ S := by linarith
  set n : ℤ := ⌊S / SEGMENT_LENGTH⌋ with hn
  have hnn : 0 ≤ n := Int.floor_nonneg.mpr (div_nonneg hSnn hL.le)
  have hlo : (n : ℚ) * SEGMENT_LENGTH ≤ S := by
    have := Int.floor_le (S / SEGMENT_LENGTH)
    calc (n : ℚ) * SEGMENT_LENGTH ≤ S / SEGMENT_LENGTH * SEGMENT_LENGTH := by
          exact mul_le_mul_of_nonneg_right (by exact_mod_cast this) hL.le
      _ = S := div_mul_cancel₀ S hL.ne'
  have hhi : S < ((n : ℚ) + 1) * SEGMENT_LENGTH := by
    have := Int.lt_floor_add_one (S / SEGMENT_LENGTH)
    calc S = S / SEGMENT_LENGTH * SEGMENT_LENGTH := (div_mul_cancel₀ S hL.ne').symm
      _ < ((n : ℚ) + 1) * SEGMENT_LENGTH := by
          apply mul_lt_mul_of_pos_right _ hL
          exact_mod_cast this
  have hidx : (advance_z dyn delta).seg_idx = dyn.seg_idx + n.toNat := rfl
  have hpos : (advance_z dyn delta).seg_pos = S - (n : ℚ) * SEGMENT_LENGTH := rfl
  refine ⟨?_, ?_, ?_⟩
  · rw [hidx, hpos]
    have hcast : ((n.toNat : ℚ)) = (n : ℚ) := by
      exact_mod_cast Int.toNat_of_nonneg hnn
    push_cast
    rw [hcast]
    ring
  · rw [hpos]; linarith
  · rw [hpos]; linarith

/-- Witness for C3: advancing the fresh road state by 40 world units (crossing
two segment boundaries at once). -/
theorem claim3_advance_z_witness :
    ((advance_z build_road_dynamic 40).seg_idx : ℚ) * SEGMENT_LENGTH
        + (advance_z build_road_dynamic 40).seg_pos
      = (build_road_dynamic.seg_idx : ℚ) * SEGMENT_LENGTH + build_road_dynamic.seg_pos + 40 ∧
    0 ≤ (advance_z build_road_dynamic 40).seg_pos ∧
    (advance_z build_road_dynamic 40).seg_pos < SEGMENT_LENGTH :=
  claim3_advance_z build_road_dynamic 40 (by norm_num)
    (le_refl _) (by norm_num [build_road_dynamic, SEGMENT_LENGTH])

/-! ## C9: clamped segment lookup -/

/-- C9: with a non-empty segment list and non-negative forward offset,
`get_seg_curvature` reads the segment at the index clamped into bounds, and
past the end of the authored track it returns the last segment's curve. -/
theorem claim9_seg_curvature_clamps (dyn : RoadDynamic) (pos_offset : ℚ)
    (hne : dyn.segs ≠ []) (hoff : 0 ≤ pos_offset) (hpos : 0 ≤ dyn.seg_pos) :
    (∃ k, k < dyn.segs.length ∧
        get_seg_curvature dyn pos_offset = (dyn.segs.getD k ⟨0, 0⟩).curve ∧
        k = min (dyn.seg_idx + (⌊(dyn.seg_pos + pos_offset) / SEGMENT_LENGTH⌋).toNat)
            (dyn.segs.length - 1)) ∧
    (dyn.segs.length ≤ dyn.seg_idx + (⌊(dyn.seg_pos + pos_offset) / SEGMENT_LENGTH⌋).toNat →
      get_seg_curvature dyn pos_offset = (dyn.segs.getLast hne).curve) := by
  have hlen : 0 < dyn.segs.length := List.length_pos.mpr hne
  set idx := dyn.seg_idx + (⌊(dyn.seg_pos + pos_offset) / SEGMENT_LENGTH⌋).toNat with hidx
  constructor
  · exact ⟨min idx (dyn.segs.length - 1),
      lt_of_le_of_lt (min_le_right _ _) (by omega), rfl, rfl⟩
  · intro hover
    have hmin : min idx (dyn.segs.length - 1) = dyn.segs.length - 1 :=
      min_eq_right (by omega)
    show (get_bounded_seg dyn.segs idx).curve = _
    rw [get_bounded_seg, hmin,
      List.getD_eq_getElem _ _ (by omega), List.getLast_eq_getElem]

/-- Witness for C9: querying 100 world units ahead of a two-segment track
returns the last segment's curve. -/
theorem claim9_seg_curvature_clamps_witness :
    get_seg_curvature curvature_probe_dyn 100 = 2 := by
  have hne : curvature_probe_dyn.segs ≠ [] := by
    simp [curvature_probe_dyn, build_road_dynamic]
  have hfloor : ⌊(curvature_probe_dyn.seg_pos + 100) / SEGMENT_LENGTH⌋ = 6 := by
    show ⌊((0 : ℚ) + 100) / SEGMENT_LENGTH⌋ = 6
    rw [Int.floor_eq_iff]
    constructor <;> norm_num [SEGMENT_LENGTH]
  have h := (claim9_seg_curvature_clamps curvature_probe_dyn 100 hne (by norm_num)
    (le_refl _)).2
  rw [h (by rw [hfloor]; norm_num [curvature_probe_dyn, build_road_dynamic])]
  rfl

/-! ## Behaviour of the collapsed `binary_search_by` -/

theorem binSearchGo_all_gt {α : Type} [LinearOrder α] (xs : List α) (d t : α)
    (hall : ∀ i, i < xs.length → t < xs.getD i d) :
    ∀ (fuel left right : Nat), right ≤ xs.length →
      binSearchGo xs d t left right fuel = left := by
  intro fuel
  induction fuel with
  | zero => intro left right _; rfl
  | succ fuel ih =>
    intro left right hr
    simp only [binSearchGo]
    by_cases hlr : left < right
    · rw [if_pos hlr]
      have hmid : left + (right - left) / 2 < right := by omega
      have hx := hall _ (lt_of_lt_of_le hmid hr)
      rw [if_neg (lt_asymm hx), if_pos hx]
      exact ih left _ (le_trans hmid.le hr)
    · rw [if_neg hlr]

theorem binSearchGo_all_lt {α : Type} [LinearOrder α] (xs : List α) (d t : α)
    (hall : ∀ i, i < xs.length → xs.getD i d < t) :
    ∀ (fuel left right : Nat), right ≤ xs.length → left ≤ right → right - left ≤ fuel →
      binSearchGo xs d t left right fuel = right := by
  intro fuel
  induction fuel with
  | zero =>
    intro left right _ hlr hf
    have e : binSearchGo xs d t left right 0 = left := rfl
    rw [e]; omega
  | succ fuel ih =>
    intro left right hr hlr hf
    simp only [binSearchGo]
    by_cases hlt : left < right
    · rw [if_pos hlt]
      have hmid : left + (right - left) / 2 < right := by omega
      have hx := hall _ (lt_of_lt_of_le hmid hr)
      rw [if_pos hx]
      exact ih _ right hr (by omega) (by omega)
    · rw [if_neg hlt]; omega

theorem binSearchGo_finds {α : Type} [LinearOrder α] (xs : List α) (d t : α) (r : Nat)
    (hr : r < xs.length) (hval : xs.getD r d = t)
    (mono : ∀ i j, i ≤ j → j < xs.length → xs.getD i d ≤ xs.getD j d)
    (uniq : ∀ i, i < xs.length → xs.getD i d = t → i = r) :
    ∀ (fuel left right : Nat), left ≤ r → r < right → right ≤ xs.length →
      right - left ≤ fuel → binSearchGo xs d t left right fuel = r := by
  intro fuel
  induction fuel with
  | zero => intro left right h1 h2 _ hf; omega
  | succ fuel ih =>
    intro left right hlr hrr hrl hf
    have hlt : left < right := by omega
    simp only [binSearchGo]
    rw [if_pos hlt]
    set mid := left + (right - left) / 2 with hmid
    have hmlt : mid < right := by omega
    have hmge : left ≤ mid := by omega
    have hmlen : mid < xs.length := lt_of_lt_of_le hmlt hrl
    rcases lt_trichotomy (xs.getD mid d) t with hc | hc | hc
    · rw [if_pos hc]
      have hmr : mid < r := by
        by_contra hge
        have hle : xs.getD r d ≤ xs.getD mid d := mono r mid (by omega) hmlen
        rw [hval] at hle
        exact absurd hc (not_lt.mpr hle)
      exact ih (mid + 1) right (by omega) hrr hrl (by omega)
    · rw [if_neg (by rw [hc]; exact lt_irrefl t), if_neg (by rw [hc]; exact lt_irrefl t)]
      exact uniq mid hmlen hc
    · rw [if_neg (lt_asymm hc), if_pos hc]
      have hrm : r < mid := by
        by_contra hge
        have hle : xs.getD mid d ≤ xs.getD r d := mono mid r (by omega) hr
        rw [hval] at hle
        exact absurd hc (not_lt.mpr hle)
      exact ih left mid hlr hrm (le_of_lt hmlen) (by omega)

theorem rust_binary_search_all_gt {α : Type} [LinearOrder α] (xs : List α) (d t : α)
    (hall : ∀ i, i < xs.length → t < xs.getD i d) :
    rust_binary_search xs d t = 0 :=
  binSearchGo_all_gt xs d t hall _ 0 xs.length (le_refl _)

theorem rust_binary_search_all_lt {α : Type} [LinearOrder α] (xs : List α) (d t : α)
    (hall : ∀ i, i < xs.length → xs.getD i d < t) :
    rust_binary_search xs d t = xs.length :=
  binSearchGo_all_lt xs d t hall _ 0 xs.length (le_refl _) (Nat.zero_le _) (by omega)

theorem rust_binary_search_finds {α : Type} [LinearOrder α] (xs : List α) (d t : α) (r : Nat)
    (hr : r < xs.length) (hval : xs.getD r d = t)
    (mono : ∀ i j, i ≤ j → j < xs.length → xs.getD i d ≤ xs.getD j d)
    (uniq : ∀ i, i < xs.length → xs.getD i d = t → i = r) :
    rust_binary_search xs d t = r :=
  binSearchGo_finds xs d t r hr hval mono uniq _ 0 xs.length (Nat.zero_le _) hr
    (le_refl _) (by omega)

/-! ## The table projector on zero parameters -/

theorem get_bounded_seg_mem (segs : List RoadSegment) (hne : segs ≠ []) (idx : Nat) :
    get_bounded_seg segs idx ∈ segs := by
  have hlen : 0 < segs.length := List.length_pos.mpr hne
  unfold get_bounded_seg
  rw [List.getD_eq_getElem _ _ (by omega)]
  exact List.getElem_mem _

/-- When every segment's parameter is zero, the quadratic accumulator never
moves: every output row is the running `cur_value`, which stays at its seed. -/
theorem mapQuadGo_zero (coeff : QuadraticCoefficients) (f : RoadSegment → ℚ)
    (segs : List RoadSegment) (hne : segs ≠ []) (hf : ∀ s ∈ segs, f s = 0) :
    ∀ (zs : List ℚ) (c lz : ℚ) (si : Nat) (sp : ℚ),
      mapQuadGo coeff f segs zs c 0 lz si sp = List.replicate zs.length c := by
  intro zs
  induction zs with
  | nil => intro c lz si sp; rfl
  | cons z rest ih =>
    intro c lz si sp
    simp only [mapQuadGo]
    rw [hf _ (get_bounded_seg_mem segs hne _)]
    simp only [zero_mul, mul_zero, add_zero, zero_add, List.length_cons]
    rw [ih]
    rfl

theorem map_road_quadratic_zero (coeff : QuadraticCoefficients) (init : ℚ)
    (f : RoadSegment → ℚ) (st : RoadStatic) (segs : List RoadSegment)
    (si : Nat) (sp : ℚ) (hne : segs ≠ []) (hf : ∀ s ∈ segs, f s = 0) :
    map_road_quadratic coeff init f st segs si sp = List.replicate st.z_map.length init :=
  mapQuadGo_zero coeff f segs hne hf _ init _ si sp

/-- `update_road_curvature` on an all-straight segment list: every row of
`x_map` is the screen-center X plus the converged lateral offset. -/
theorem update_road_curvature_zero (st : RoadStatic) (dyn : RoadDynamic)
    (hne : dyn.segs ≠ []) (hc : ∀ s ∈ dyn.segs, s.curve = 0) {i : Nat}
    (hi : i < st.z_map.length) :
    (update_road_curvature st dyn).x_map.getD i 0
      = (FIELD_WIDTH : ℚ) * (1 / 2) + converge_x dyn.x_offset i := by
  have hmap : map_road_quadratic CURVE_COEFF ((FIELD_WIDTH : ℚ) * (1 / 2))
      (fun seg => seg.curve) st dyn.segs dyn.seg_idx dyn.seg_pos
      = List.replicate st.z_map.length ((FIELD_WIDTH : ℚ) * (1 / 2)) :=
    map_road_quadratic_zero _ _ _ _ _ _ _ hne hc
  show (List.zipWith _ _ _).getD i 0 = _
  rw [hmap]
  have hlen : (List.zipWith
      (fun j x => x + converge_x dyn.x_offset j)
      (List.range (List.replicate st.z_map.length ((FIELD_WIDTH : ℚ) * (1 / 2))).length)
      (List.replicate st.z_map.length ((FIELD_WIDTH : ℚ) * (1 / 2)))).length
      = st.z_map.length := by
    simp
  rw [List.getD_eq_getElem _ _ (by rw [hlen]; exact hi)]
  rw [List.getElem_zipWith]
  rw [List.getElem_range, List.getElem_replicate]

/-- C5: with every segment's curve zero and lateral offset `L`, the
curvature update makes row `i` of `x_map` equal to
`centerX + L * (1 - i / N)`; in particular row 0 carries the full lateral
offset and row `N - 1` carries only `L / N` of it. -/
theorem claim5_zero_curvature (dyn : RoadDynamic) (L : ℚ)
    (hL : dyn.x_offset = L) (hne : dyn.segs ≠ []) (hc : ∀ s ∈ dyn.segs, s.curve = 0) :
    (∀ i, i < ROAD_DISTANCE →
      (update_road_curvature build_road_static dyn).x_map.getD i 0
        = (FIELD_WIDTH : ℚ) * (1 / 2) + L * (1 - (i : ℚ) / (ROAD_DISTANCE : ℚ))) ∧
    (update_road_curvature build_road_static dyn).x_map.getD 0 0
      = (FIELD_WIDTH : ℚ) * (1 / 2) + L ∧
    (update_road_curvature build_road_static dyn).x_map.getD (ROAD_DISTANCE - 1) 0
      = (FIELD_WIDTH : ℚ) * (1 / 2) + L * (1 / (ROAD_DISTANCE : ℚ)) := by
  have hlen : build_road_static.z_map.length = ROAD_DISTANCE := z_map_game_length
  have main : ∀ i, i < ROAD_DISTANCE →
      (update_road_curvature build_road_static dyn).x_map.getD i 0
        = (FIELD_WIDTH : ℚ) * (1 / 2) + L * (1 - (i : ℚ) / (ROAD_DISTANCE : ℚ)) := by
    intro i hi
    rw [update_road_curvature_zero build_road_static dyn hne hc (by rw [hlen]; exact hi)]
    rw [converge_x, hL]
  refine ⟨main, ?_, ?_⟩
  · rw [main 0 (by norm_num [ROAD_DISTANCE])]
    norm_num
  · rw [main (ROAD_DISTANCE - 1) (by norm_num [ROAD_DISTANCE])]
    norm_num [ROAD_DISTANCE]

/-- Witness for C5: a lateral offset of 7 over the default (all-straight)
segments puts the nearest row's road center at `160 + 7`. -/
theorem claim5_zero_curvature_witness :
    (update_road_curvature build_road_static
        { build_road_dynamic with x_offset := 7 }).x_map.getD 0 0
      = (FIELD_WIDTH : ℚ) * (1 / 2) + 7 :=
  (claim5_zero_curvature { build_road_dynamic with x_offset := 7 } 7 rfl
    (by simp [build_road_dynamic])
    (by intro s hs; fin_cases hs <;> rfl)).2.1

/-! ## The scanline walk of `update_road_hills` -/

theorem le_rustMax_right (a b : ℚ) : b ≤ rustMax a b := by
  unfold rustMax
  split
  · exact le_refl b
  · linarith [lt_of_not_le (by assumption)]

theorem fltIter_step_le (adv : List ℚ) (flt : ℚ) (n : Nat) :
    fltIter adv flt n + 1 / 100000 ≤ fltIter adv flt (n + 1) := by
  show fltIter adv flt n + 1 / 100000 ≤ fltIter adv flt n + rustMax _ _
  have := le_rustMax_right (adv.getD (rustTruncNat (fltIter adv flt n)) 0) (1 / 100000)
  linarith

theorem fltIter_shift (adv : List ℚ) (flt : ℚ) :
    ∀ n, fltIter adv (flt + rustMax (adv.getD (rustTruncNat flt) 0) (1 / 100000)) n
      = fltIter adv flt (n + 1) := by
  intro n
  induction n with
  | zero => rfl
  | succ n ih => show fltIter adv _ n + _ = _; rw [ih]; rfl

/-- Full behaviour of the scanline walk `hills_go`, for any advancement
table: the written prefix records the truncated running index, every written
entry is in range, and the walk stops at the first scanline whose running
index reaches `ROAD_DISTANCE` (if fuel remains at the stop). -/
theorem hills_go_spec (adv : List ℚ) :
    ∀ (fuel cur : Nat) (flt : ℚ),
      cur ≤ (hills_go adv fuel cur flt).2 ∧
      (hills_go adv fuel cur flt).2 ≤ cur + fuel ∧
      (hills_go adv fuel cur flt).1.length = (hills_go adv fuel cur flt).2 - cur ∧
      (∀ j, j < (hills_go adv fuel cur flt).2 - cur →
        (hills_go adv fuel cur flt).1.getD j ROAD_DISTANCE = rustTruncNat (fltIter adv flt j) ∧
        rustTruncNat (fltIter adv flt j) < ROAD_DISTANCE) ∧
      ((hills_go adv fuel cur flt).2 < cur + fuel →
        ROAD_DISTANCE ≤ rustTruncNat (fltIter adv flt ((hills_go adv fuel cur flt).2 - cur))) := by
  intro fuel
  induction fuel with
  | zero =>
    intro cur flt
    have e : hills_go adv 0 cur flt = ([], cur) := rfl
    rw [e]
    refine ⟨le_refl _, by omega, by simp, fun j hj => absurd hj (by simp), fun h => absurd h (by simp)⟩
  | succ fuel ih =>
    intro cur flt
    simp only [hills_go]
    by_cases hbreak : ROAD_DISTANCE ≤ rustTruncNat flt
    · rw [if_pos hbreak]
      refine ⟨le_refl _, by omega, by simp, fun j hj => absurd hj (by simp), fun h => ?_⟩
      show ROAD_DISTANCE ≤ rustTruncNat (fltIter adv flt (cur - cur))
      rw [Nat.sub_self]
      exact hbreak
    · rw [if_neg hbreak]
      rcases ih (cur + 1) (flt + rustMax (adv.getD (rustTruncNat flt) 0) (1 / 100000)) with
        ⟨ih1, ih2, ih3, ih4, ih5⟩
      refine ⟨by dsimp only; omega, by dsimp only; omega, ?_, ?_, ?_⟩
      · show (rustTruncNat flt :: _).length = _
        simp only [List.length_cons]
        omega
      · intro j hj
        dsimp only at hj
        match j with
        | 0 =>
          refine ⟨rfl, ?_⟩
          have h0 : fltIter adv flt 0 = flt := rfl
          rw [h0]
          omega
        | j + 1 =>
          rcases ih4 j (by omega) with ⟨e1, e2⟩
          rw [fltIter_shift] at e1 e2
          exact ⟨e1, e2⟩
      · intro hstop
        dsimp only at hstop
        have h5 := ih5 (by omega)
        rw [fltIter_shift] at h5
        have harith :
            (hills_go adv fuel (cur + 1) (flt + rustMax (adv.getD (rustTruncNat flt) 0)
              (1 / 100000))).2 - (cur + 1) + 1
            = (hills_go adv fuel (cur + 1) (flt + rustMax (adv.getD (rustTruncNat flt) 0)
              (1 / 100000))).2 - cur := by omega
        rw [harith] at h5
        exact h5

/-! ## The flat startup state -/

theorem rustTruncNat_natCast (k : Nat) : rustTruncNat ((k : ℚ)) = k := by
  unfold rustTruncNat rustTruncZ
  rw [if_neg (not_lt.mpr (by positivity)), Int.floor_natCast]
  exact Int.toNat_natCast k

/-- The scanline walk over an all-ones advancement table: one depth row per
scanline until the table is exhausted. -/
theorem hills_go_ones (adv : List ℚ) (hadv : ∀ i, i < ROAD_DISTANCE → adv.getD i 0 = 1) :
    ∀ (fuel k cur : Nat), k ≤ ROAD_DISTANCE → ROAD_DISTANCE - k < fuel →
      hills_go adv fuel cur ((k : ℚ))
        = (List.range' k (ROAD_DISTANCE - k), cur + (ROAD_DISTANCE - k)) := by
  intro fuel
  induction fuel with
  | zero => intro k cur hk hf; omega
  | succ fuel ih =>
    intro k cur hk hf
    simp only [hills_go]
    rw [rustTruncNat_natCast]
    by_cases hbreak : ROAD_DISTANCE ≤ k
    · rw [if_pos hbreak]
      have hke : k = ROAD_DISTANCE := le_antisymm hk hbreak
      rw [hke, Nat.sub_self]
      rfl
    · rw [if_neg hbreak]
      rw [hadv k (by omega)]
      have hmax : rustMax 1 (1 / 100000) = 1 := by
        unfold rustMax
        rw [if_neg (by norm_num)]
      rw [hmax]
      have hcast : ((k : ℚ) + 1) = (((k + 1 : Nat)) : ℚ) := by push_cast; ring
      rw [hcast, ih (k + 1) (cur + 1) (by omega) (by omega)]
      have hm : ROAD_DISTANCE - k = (ROAD_DISTANCE - (k + 1)) + 1 := by omega
      rw [hm, List.range'_succ]
      simp only [Prod.mk.injEq]
      exact ⟨by trivial, by omega⟩

theorem build_road_dynamic_segs_ne : build_road_dynamic.segs ≠ [] := by
  simp [build_road_dynamic]

theorem build_road_dynamic_curve0 : ∀ s ∈ build_road_dynamic.segs, s.curve = 0 := by
  intro s hs; fin_cases hs <;> rfl

theorem build_road_dynamic_hill0 : ∀ s ∈ build_road_dynamic.segs, s.hill = 0 := by
  intro s hs; fin_cases hs <;> rfl

theorem flat_adv_eq : hill_advancement_map build_road_static
    (update_road_curvature build_road_static build_road_dynamic)
    = List.replicate ROAD_DISTANCE 1 := by
  show map_road_quadratic HILL_COEFF 1 _ build_road_static build_road_dynamic.segs
      build_road_dynamic.seg_idx build_road_dynamic.seg_pos = _
  rw [map_road_quadratic_zero _ _ _ _ _ _ _ build_road_dynamic_segs_ne build_road_dynamic_hill0]
  show List.replicate z_map_game.length 1 = _
  rw [z_map_game_length]

theorem flat_adv_ones : ∀ i, i < ROAD_DISTANCE →
    (hill_advancement_map build_road_static
      (update_road_curvature build_road_static build_road_dynamic)).getD i 0 = 1 := by
  intro i hi
  rw [flat_adv_eq, List.getD_eq_getElem _ _ (by simpa using hi), List.getElem_replicate]

theorem flat_dyn_fields :
    flat_dyn.draw_height = ROAD_DISTANCE ∧
    flat_dyn.y_map = List.range ROAD_DISTANCE ++
      List.replicate (MAX_ROAD_DRAW_HEIGHT - ROAD_DISTANCE) ROAD_DISTANCE := by
  have hgo := hills_go_ones _ flat_adv_ones MAX_ROAD_DRAW_HEIGHT 0 0
    (Nat.zero_le _) (by norm_num [ROAD_DISTANCE, MAX_ROAD_DRAW_HEIGHT])
  rw [Nat.cast_zero] at hgo
  constructor
  · show (hills_go _ MAX_ROAD_DRAW_HEIGHT 0 0).2 = ROAD_DISTANCE
    rw [hgo]
    dsimp only
    omega
  · show (hills_go _ MAX_ROAD_DRAW_HEIGHT 0 0).1 ++
      List.replicate (MAX_ROAD_DRAW_HEIGHT - (hills_go _ MAX_ROAD_DRAW_HEIGHT 0 0).2)
        ROAD_DISTANCE = _
    rw [hgo]
    dsimp only
    rw [Nat.sub_zero, Nat.zero_add, ← List.range_eq_range']

theorem flat_dyn_y_getD (d : Nat) {j : Nat} (hj : j < MAX_ROAD_DRAW_HEIGHT) :
    flat_dyn.y_map.getD j d = min j ROAD_DISTANCE := by
  rw [flat_dyn_fields.2]
  have hlen : (List.range ROAD_DISTANCE ++
      List.replicate (MAX_ROAD_DRAW_HEIGHT - ROAD_DISTANCE) ROAD_DISTANCE).length
      = MAX_ROAD_DRAW_HEIGHT := by
    simp [ROAD_DISTANCE, MAX_ROAD_DRAW_HEIGHT]
  rw [List.getD_eq_getElem _ _ (by rw [hlen]; exact hj)]
  by_cases hcase : j < ROAD_DISTANCE
  · rw [List.getElem_append_left (by simpa using hcase)]
    rw [List.getElem_range]
    omega
  · rw [List.getElem_append_right (by simpa using hcase)]
    rw [List.getElem_replicate]
    omega

theorem flat_dyn_x_getD {i : Nat} (hi : i < ROAD_DISTANCE) :
    flat_dyn.x_map.getD i 0 = (FIELD_WIDTH : ℚ) * (1 / 2) := by
  show (update_road_curvature build_road_static build_road_dynamic).x_map.getD i 0 = _
  rw [update_road_curvature_zero build_road_static build_road_dynamic
    build_road_dynamic_segs_ne build_road_dynamic_curve0
    (by show i < z_map_game.length; rw [z_map_game_length]; exact hi)]
  show _ + (0 : ℚ) * _ = _
  ring

theorem flat_dyn_seg_pos : flat_dyn.seg_pos = 0 := rfl

theorem flat_dyn_z_offset : flat_dyn.z_offset = 0 := rfl

/-! ## C6: hill floor and scanline mapping invariants -/

/-- C6: for every road state, the per-scanline advancement is clamped to at
least `0.00001` (so the running depth-table index strictly increases); after
`update_road_hills`, every scanline below `draw_height` holds the in-range
truncated running index, every scanline at or beyond `draw_height` holds the
sentinel `ROAD_DISTANCE`, and `draw_height` is the first scanline whose
running index reaches the table length (when the walk stops before the screen
height cap). -/
theorem claim6_hill_scanline_invariants (st : RoadStatic) (dyn : RoadDynamic)
    (hne : dyn.segs ≠ []) :
    (∀ n, fltIter (hill_advancement_map st dyn) 0 n + 1 / 100000
        ≤ fltIter (hill_advancement_map st dyn) 0 (n + 1)) ∧
    (update_road_hills st dyn).draw_height ≤ MAX_ROAD_DRAW_HEIGHT ∧
    (∀ l, l < (update_road_hills st dyn).draw_height →
      (update_road_hills st dyn).y_map.getD l ROAD_DISTANCE
          = rustTruncNat (fltIter (hill_advancement_map st dyn) 0 l) ∧
      (update_road_hills st dyn).y_map.getD l ROAD_DISTANCE < ROAD_DISTANCE) ∧
    (∀ l, (update_road_hills st dyn).draw_height ≤ l → l < MAX_ROAD_DRAW_HEIGHT →
      (update_road_hills st dyn).y_map.getD l 0 = ROAD_DISTANCE) ∧
    ((update_road_hills st dyn).draw_height < MAX_ROAD_DRAW_HEIGHT →
      ROAD_DISTANCE ≤ rustTruncNat (fltIter (hill_advancement_map st dyn) 0
        ((update_road_hills st dyn).draw_height))) := by
  rcases hills_go_spec (hill_advancement_map st dyn) MAX_ROAD_DRAW_HEIGHT 0 0 with
    ⟨h1, h2, h3, h4, h5⟩
  have hdh : (update_road_hills st dyn).draw_height
      = (hills_go (hill_advancement_map st dyn) MAX_ROAD_DRAW_HEIGHT 0 0).2 := rfl
  have hym : (update_road_hills st dyn).y_map
      = (hills_go (hill_advancement_map st dyn) MAX_ROAD_DRAW_HEIGHT 0 0).1 ++
        List.replicate
          (MAX_ROAD_DRAW_HEIGHT -
            (hills_go (hill_advancement_map st dyn) MAX_ROAD_DRAW_HEIGHT 0 0).2)
          ROAD_DISTANCE := rfl
  refine ⟨fltIter_step_le _ 0, by omega, ?_, ?_, ?_⟩
  · intro l hl
    rw [hdh] at hl
    rcases h4 l (by omega) with ⟨e1, e2⟩
    rw [hym]
    rw [List.getD_eq_getElem _ _ (by simp only [List.length_append, List.length_replicate]; omega)]
    rw [List.getElem_append_left (by omega)]
    rw [← List.getD_eq_getElem _ ROAD_DISTANCE (by omega)]
    rw [e1]
    exact ⟨rfl, e2⟩
  · intro l hdl hlm
    rw [hdh] at hdl
    rw [hym]
    rw [List.getD_eq_getElem _ _ (by simp only [List.length_append, List.length_replicate]; omega)]
    rw [List.getElem_append_right (by omega)]
    rw [List.getElem_replicate]
  · intro hstop
    rw [hdh] at hstop ⊢
    have h5' := h5 (by omega)
    rwa [Nat.sub_zero] at h5'

/-- Witness for C6: on the startup state (flat track), scanline 169 lies at or
beyond the recorded draw height and holds the sentinel row index. -/
theorem claim6_hill_scanline_invariants_witness :
    flat_dyn.y_map.getD 169 0 = ROAD_DISTANCE := by
  have h := (claim6_hill_scanline_invariants build_road_static
    (update_road_curvature build_road_static build_road_dynamic)
    (by show build_road_dynamic.segs ≠ []; exact build_road_dynamic_segs_ne)).2.2.2.1
  have hdh : (update_road_hills build_road_static
      (update_road_curvature build_road_static build_road_dynamic)).draw_height
      = ROAD_DISTANCE := flat_dyn_fields.1
  exact h 169 (by rw [hdh]; norm_num [ROAD_DISTANCE])
    (by norm_num [MAX_ROAD_DRAW_HEIGHT])

/-! ## C1: the world-to-screen query at the visibility boundaries -/

theorem build_road_static_z : build_road_static.z_map = z_map_game := rfl

theorem build_road_static_scale : build_road_static.scale_map = scale_map_game := rfl

theorem z_getD_mono : ∀ i j, i ≤ j → j < z_map_game.length →
    z_map_game.getD i 0 ≤ z_map_game.getD j 0 := by
  intro i j hij hj
  rw [z_map_game_length] at hj
  rcases eq_or_lt_of_le hij with rfl | hlt
  · exact le_refl _
  · rw [z_map_game_getD (lt_trans hlt hj), z_map_game_getD hj]
    exact (z_map_entry_lt hlt hj).le

theorem z_getD_uniq (r : Nat) (hr : r < ROAD_DISTANCE) :
    ∀ i, i < z_map_game.length → z_map_game.getD i 0 = z_map_game.getD r 0 → i = r := by
  intro i hi he
  rw [z_map_game_length] at hi
  rcases lt_trichotomy i r with h | h | h
  · rw [z_map_game_getD hi, z_map_game_getD hr] at he
    exact absurd he (ne_of_lt (z_map_entry_lt h hr))
  · exact h
  · rw [z_map_game_getD hi, z_map_game_getD hr] at he
    exact absurd he.symm (ne_of_lt (z_map_entry_lt h hi))

theorem flat_dyn_y_length : flat_dyn.y_map.length = MAX_ROAD_DRAW_HEIGHT := by
  rw [flat_dyn_fields.2]
  simp [ROAD_DISTANCE, MAX_ROAD_DRAW_HEIGHT]

/-- On the flat state, searching `y_map` for an in-range row finds it at the
scanline with the same index. -/
theorem ysearch_flat (t : Nat) (ht : t < ROAD_DISTANCE) :
    rust_binary_search flat_dyn.y_map 0 t = t := by
  have ht' : t < 110 := by simpa [ROAD_DISTANCE] using ht
  have htm : t < MAX_ROAD_DRAW_HEIGHT := by
    simp only [MAX_ROAD_DRAW_HEIGHT]
    omega
  apply rust_binary_search_finds flat_dyn.y_map 0 t t
  · rw [flat_dyn_y_length]
    exact htm
  · rw [flat_dyn_y_getD 0 htm]
    exact min_eq_left (le_of_lt ht)
  · intro i j hij hj
    rw [flat_dyn_y_length] at hj
    rw [flat_dyn_y_getD 0 (lt_of_le_of_lt hij hj), flat_dyn_y_getD 0 hj]
    exact min_le_min hij (le_refl _)
  · intro i hi he
    rw [flat_dyn_y_length] at hi
    rw [flat_dyn_y_getD 0 hi] at he
    rcases le_or_lt ROAD_DISTANCE i with hcase | hcase
    · rw [min_eq_right hcase] at he
      omega
    · rw [min_eq_left (le_of_lt hcase)] at he
      exact he

/-- Behind-the-camera boundary: any query depth at or below zero is
rejected before the tables are read, for every dynamic state. -/
theorem query_nonpos_none (dyn : RoadDynamic) (x z : ℚ) (hz : z ≤ 0) :
    get_draw_params_on_road build_road_static dyn x z = none := by
  have hall : ∀ i, i < z_map_game.length → z < z_map_game.getD i 0 := by
    intro i hi
    rw [z_map_game_length] at hi
    rw [z_map_game_getD hi]
    exact lt_of_le_of_lt hz (z_map_entry_pos hi)
  have hsearch : rust_binary_search z_map_game 0 z = 0 :=
    rust_binary_search_all_gt _ _ _ hall
  simp only [get_draw_params_on_road, build_road_static_z, build_road_static_scale, hsearch]
  simp

/-- Depth exactly on table row 0: the binary search answers the exact-hit
index 0, which the guard `search_result_idx == 0` rejects, so the query is
`None` — for every dynamic state. -/
theorem query_row0_none (dyn : RoadDynamic) (x : ℚ) :
    get_draw_params_on_road build_road_static dyn x (z_map_game.getD 0 0) = none := by
  have hsearch : rust_binary_search z_map_game 0 (z_map_game.getD 0 0) = 0 :=
    rust_binary_search_finds _ _ _ 0 (by rw [z_map_game_length, ROAD_DISTANCE_eq]; omega) rfl
      z_getD_mono (z_getD_uniq 0 (by rw [ROAD_DISTANCE_eq]; omega))
  simp only [get_draw_params_on_road, build_road_static_z, build_road_static_scale, hsearch]
  simp

/-- Depth exactly on table row `r ≥ 1`: the query answers `Some` with the
scale of row `r - 1` (the row below), on the flat startup state. -/
theorem query_exact_row_scale (r : Nat) (h1 : 1 ≤ r) (h2 : r < ROAD_DISTANCE) :
    (get_draw_params_on_road build_road_static flat_dyn 0 (z_map_game.getD r 0)).map
      (fun p => p.scale) = some (scale_map_game.getD (r - 1) 0) := by
  have h2' : r < 110 := by simpa [ROAD_DISTANCE] using h2
  have hsearch : rust_binary_search z_map_game 0 (z_map_game.getD r 0) = r :=
    rust_binary_search_finds _ _ _ r (by rw [z_map_game_length]; exact h2) rfl
      z_getD_mono (z_getD_uniq r h2)
  have hysearch : rust_binary_search flat_dyn.y_map 0 (r - 1) = r - 1 :=
    ysearch_flat (r - 1) (by simp only [ROAD_DISTANCE]; omega)
  have hdh : flat_dyn.draw_height = 110 := by
    simpa [ROAD_DISTANCE] using flat_dyn_fields.1
  simp only [get_draw_params_on_road, build_road_static_z, build_road_static_scale,
    hsearch, hysearch]
  rw [if_neg (by simp only [ROAD_DISTANCE]; omega)]
  rw [if_neg (by
    rw [hdh]
    have hle : (if 0 < r - 1 then r - 1 - 1 else r - 1) ≤ r - 1 := by split <;> omega
    omega)]
  rfl

/-- Far-end behaviour: once the binary search answers an index `s` with
`1 ≤ s ≤ ROAD_DISTANCE`, the flat-state query is `Some`. -/
theorem query_flat_some_of_search (z : ℚ) (s : Nat) (hs1 : 1 ≤ s) (hs2 : s ≤ ROAD_DISTANCE)
    (hsearch : rust_binary_search z_map_game 0 z = s) :
    (get_draw_params_on_road build_road_static flat_dyn 0 z).isSome = true := by
  have hs2' : s ≤ 110 := by simpa [ROAD_DISTANCE] using hs2
  have hysearch : rust_binary_search flat_dyn.y_map 0 (s - 1) = s - 1 :=
    ysearch_flat (s - 1) (by simp only [ROAD_DISTANCE]; omega)
  have hdh : flat_dyn.draw_height = 110 := by
    simpa [ROAD_DISTANCE] using flat_dyn_fields.1
  simp only [get_draw_params_on_road, build_road_static_z, build_road_static_scale,
    hsearch, hysearch]
  rw [if_neg (by simp only [ROAD_DISTANCE]; omega)]
  rw [if_neg (by
    rw [hdh]
    have hle : (if 0 < s - 1 then s - 1 - 1 else s - 1) ≤ s - 1 := by split <;> omega
    omega)]
  rfl

/-- Beyond (or at) the far end of the depth table, the query still answers
`Some` on the flat state: the guard `search_result_idx > ROAD_DISTANCE` can
never fire, so the row clamps to the last table rows. -/
theorem query_far_some (z : ℚ) (hz : z_map_game.getD (ROAD_DISTANCE - 1) 0 ≤ z) :
    (get_draw_params_on_road build_road_static flat_dyn 0 z).isSome = true := by
  rcases eq_or_lt_of_le hz with heq | hlt
  · have hsearch : rust_binary_search z_map_game 0 z = ROAD_DISTANCE - 1 := by
      rw [← heq]
      exact rust_binary_search_finds _ _ _ (ROAD_DISTANCE - 1)
        (by rw [z_map_game_length]; simp only [ROAD_DISTANCE]; omega) rfl
        z_getD_mono (z_getD_uniq _ (by simp only [ROAD_DISTANCE]; omega))
    exact query_flat_some_of_search z (ROAD_DISTANCE - 1)
      (by simp only [ROAD_DISTANCE]; omega) (by simp only [ROAD_DISTANCE]; omega) hsearch
  · have hall : ∀ i, i < z_map_game.length → z_map_game.getD i 0 < z := by
      intro i hi
      exact lt_of_le_of_lt
        (z_getD_mono i (ROAD_DISTANCE - 1)
          (by rw [z_map_game_length] at hi; simp only [ROAD_DISTANCE] at hi ⊢; omega)
          (by rw [z_map_game_length]; simp only [ROAD_DISTANCE]; omega)) hlt
    have hsearch : rust_binary_search z_map_game 0 z = ROAD_DISTANCE := by
      rw [rust_binary_search_all_lt _ _ _ hall, z_map_game_length]
    exact query_flat_some_of_search z ROAD_DISTANCE (by simp only [ROAD_DISTANCE]; omega)
      (le_refl _) hsearch

/-- Counterexample to C1 as stated: at depth exactly `depth_table[5]` the
query answers `Some` with `scale_table[4]`, which differs from `scale_table[5]`;
and at a depth strictly beyond the table maximum the query still answers
`Some` rather than `None`. -/
theorem claim1_counterexample :
    (get_draw_params_on_road build_road_static flat_dyn 0 (z_map_game.getD 5 0)).map
        (fun p => p.scale) = some (scale_map_game.getD 4 0) ∧
    scale_map_game.getD 4 0 ≠ scale_map_game.getD 5 0 ∧
    (get_draw_params_on_road build_road_static flat_dyn 0
        (z_map_game.getD 109 0 + 1)).isSome = true := by
  refine ⟨query_exact_row_scale 5 (by norm_num) (by norm_num [ROAD_DISTANCE]), ?_, ?_⟩
  · rw [scale_map_game_getD (by norm_num [ROAD_DISTANCE]),
      scale_map_game_getD (by norm_num [ROAD_DISTANCE])]
    have h45 := z_map_entry_lt (show 4 < 5 by norm_num) (by norm_num [ROAD_DISTANCE])
    have h4 := z_map_entry_pos (i := 4) (by norm_num [ROAD_DISTANCE])
    exact ne_of_gt (div_lt_div_of_pos_left (by norm_num) h4 h45)
  · exact query_far_some _ (by
      show z_map_game.getD (ROAD_DISTANCE - 1) 0 ≤ z_map_game.getD 109 0 + 1
      have : ROAD_DISTANCE - 1 = 109 := by norm_num [ROAD_DISTANCE]
      rw [this]
      linarith)

/-- C1 (amended): the query returns `None` for any depth at or below zero
(for every dynamic state); for depth exactly `depth_table[r]` with `r ≥ 1` it
returns `Some` with `scale = scale_table[r - 1]` (the row below, not row `r`)
on the flat startup state; for depth at or beyond the table maximum it does
NOT return `None` — the search result clamps to the last row and the
flat-state query still answers `Some`; and for depth exactly `depth_table[0]`
it returns `None` (for every dynamic state). -/
theorem claim1_query_visibility_boundary :
    (∀ (dyn : RoadDynamic) (x z : ℚ), z ≤ 0 →
      get_draw_params_on_road build_road_static dyn x z = none) ∧
    (∀ r : Nat, 1 ≤ r → r < ROAD_DISTANCE →
      (get_draw_params_on_road build_road_static flat_dyn 0 (z_map_game.getD r 0)).map
        (fun p => p.scale) = some (scale_map_game.getD (r - 1) 0)) ∧
    (∀ z : ℚ, z_map_game.getD (ROAD_DISTANCE - 1) 0 ≤ z →
      (get_draw_params_on_road build_road_static flat_dyn 0 z).isSome = true) ∧
    (∀ (dyn : RoadDynamic) (x : ℚ),
      get_draw_params_on_road build_road_static dyn x (z_map_game.getD 0 0) = none) :=
  ⟨fun dyn x z hz => query_nonpos_none dyn x z hz,
   fun r h1 h2 => query_exact_row_scale r h1 h2,
   fun z hz => query_far_some z hz,
   fun dyn x => query_row0_none dyn x⟩

/-- Witness for C1: a depth behind the camera is rejected, depth exactly on
row 3 resolves to row 2's scale, and depth exactly on row 0 is rejected. -/
theorem claim1_query_visibility_boundary_witness :
    get_draw_params_on_road build_road_static build_road_dynamic 0 (-1) = none ∧
    (get_draw_params_on_road build_road_static flat_dyn 0 (z_map_game.getD 3 0)).map
      (fun p => p.scale) = some (scale_map_game.getD 2 0) ∧
    get_draw_params_on_road build_road_static flat_dyn 0 (z_map_game.getD 0 0) = none :=
  ⟨claim1_query_visibility_boundary.1 build_road_dynamic 0 (-1) (by norm_num),
   claim1_query_visibility_boundary.2.1 3 (by norm_num) (by norm_num [ROAD_DISTANCE]),
   claim1_query_visibility_boundary.2.2.2 flat_dyn 0⟩

/-! ## C7: full-frame overwrite by the rasterizer -/

theorem foldl_overwrite_not_mem (st : RoadStatic) (dyn : RoadDynamic) :
    ∀ (ls : List Nat) (buf : Nat → Nat) (idx : Nat), idx / FIELD_WIDTH ∉ ls →
      (ls.foldl
        (fun b cur_line => overwrite_line b cur_line (render_line st dyn cur_line)) buf) idx
        = buf idx := by
  intro ls
  induction ls with
  | nil => intro buf idx _; rfl
  | cons l ls ih =>
    intro buf idx hmem
    rw [List.foldl_cons]
    rw [ih _ idx (fun h => hmem (List.mem_cons_of_mem l h))]
    unfold overwrite_line
    rw [if_neg (fun h => hmem (by rw [h]; exact List.mem_cons_self l ls))]

theorem foldl_overwrite_mem (st : RoadStatic) (dyn : RoadDynamic) :
    ∀ (ls : List Nat) (buf : Nat → Nat) (idx : Nat), ls.Nodup → idx / FIELD_WIDTH ∈ ls →
      (ls.foldl
        (fun b cur_line => overwrite_line b cur_line (render_line st dyn cur_line)) buf) idx
        = render_line st dyn (idx / FIELD_WIDTH) (idx % FIELD_WIDTH) := by
  intro ls
  induction ls with
  | nil => intro buf idx _ hmem; exact absurd hmem (List.not_mem_nil _)
  | cons l ls ih =>
    intro buf idx hnd hmem
    rw [List.foldl_cons]
    rcases List.nodup_cons.mp hnd with ⟨hlnot, hnd'⟩
    by_cases hl : idx / FIELD_WIDTH = l
    · rw [foldl_overwrite_not_mem st dyn ls _ idx (by rw [hl]; exact hlnot)]
      unfold overwrite_line
      rw [if_pos hl, hl]
    · exact ih _ idx hnd' ((List.mem_cons.mp hmem).resolve_left hl)

theorem render_road_eq_render_line (st : RoadStatic) (dyn : RoadDynamic) (prev : Nat → Nat)
    (idx : Nat) (hidx : idx < NUM_ROAD_PIXELS) :
    render_road st dyn prev idx = render_line st dyn (idx / FIELD_WIDTH) (idx % FIELD_WIDTH) := by
  apply foldl_overwrite_mem st dyn _ prev idx (List.nodup_reverse.mpr (List.nodup_range _))
  rw [List.mem_reverse, List.mem_range]
  have h0 : 0 < FIELD_WIDTH := by norm_num [FIELD_WIDTH]
  rw [Nat.div_lt_iff_lt_mul h0]
  simp only [NUM_ROAD_PIXELS] at hidx
  rw [Nat.mul_comm] at hidx
  exact hidx

/-- C7: the rasterizer fully overwrites the pixel buffer on every call — the
output is independent of the previous frame's buffer contents at every pixel —
and every scanline whose mapped depth-table row is the sentinel is written
entirely with the transparent value 0 (iteration does not break early). -/
theorem claim7_full_frame_overwrite (st : RoadStatic) (dyn : RoadDynamic)
    (prev prev' : Nat → Nat) :
    (∀ idx, idx < NUM_ROAD_PIXELS →
      render_road st dyn prev idx = render_road st dyn prev' idx) ∧
    (∀ line x, line < MAX_ROAD_DRAW_HEIGHT → x < FIELD_WIDTH →
      ROAD_DISTANCE ≤ dyn.y_map.getD ((MAX_ROAD_DRAW_HEIGHT - 1) - line) 0 →
      render_road st dyn prev (line * FIELD_WIDTH + x) = 0) := by
  constructor
  · intro idx hidx
    rw [render_road_eq_render_line st dyn prev idx hidx,
      render_road_eq_render_line st dyn prev' idx hidx]
  · intro line x hline hx hsent
    have h0 : 0 < FIELD_WIDTH := by norm_num [FIELD_WIDTH]
    have hidx : line * FIELD_WIDTH + x < NUM_ROAD_PIXELS := by
      rw [NUM_ROAD_PIXELS_eq, FIELD_WIDTH_eq]
      rw [MAX_ROAD_DRAW_HEIGHT_eq] at hline
      rw [FIELD_WIDTH_eq] at hx
      omega
    rw [render_road_eq_render_line st dyn prev _ hidx]
    have hdiv : (line * FIELD_WIDTH + x) / FIELD_WIDTH = line := by
      rw [Nat.mul_comm line FIELD_WIDTH, Nat.mul_add_div h0, Nat.div_eq_of_lt hx,
        Nat.add_zero]
    have hmod : (line * FIELD_WIDTH + x) % FIELD_WIDTH = x := by
      rw [Nat.mul_comm line FIELD_WIDTH, Nat.mul_add_mod, Nat.mod_eq_of_lt hx]
    rw [hdiv, hmod]
    unfold render_line
    rw [if_pos hsent]

/-- Witness for C7: pixel 0 is independent of two different previous buffers,
and pixel (3, 5) of an all-sentinel frame is transparent. -/
theorem claim7_full_frame_overwrite_witness :
    render_road build_road_static sentinel_probe_dyn (fun _ => 7) 0
      = render_road build_road_static sentinel_probe_dyn (fun _ => 9) 0 ∧
    render_road build_road_static sentinel_probe_dyn (fun _ => 7) (3 * FIELD_WIDTH + 5) = 0 := by
  have h := claim7_full_frame_overwrite build_road_static sentinel_probe_dyn
    (fun _ => 7) (fun _ => 9)
  refine ⟨h.1 0 (by rw [NUM_ROAD_PIXELS_eq]; omega), ?_⟩
  apply h.2 3 5 (by rw [MAX_ROAD_DRAW_HEIGHT_eq]; omega)
    (by rw [FIELD_WIDTH_eq]; omega)
  show ROAD_DISTANCE ≤ (List.replicate MAX_ROAD_DRAW_HEIGHT ROAD_DISTANCE).getD _ 0
  rw [List.getD_eq_getElem _ _ (by
    rw [List.length_replicate, MAX_ROAD_DRAW_HEIGHT_eq]
    omega)]
  rw [List.getElem_replicate]

/-! ## C8: pixel colors from band classification -/

theorem rustTruncZ_of_nonneg (q : ℚ) (h : 0 ≤ q) : rustTruncZ q = ⌊q⌋ := by
  unfold rustTruncZ
  rw [if_neg (not_lt.mpr h)]

theorem rustTruncNat_spec (q : ℚ) (n : Nat) (h1 : (n : ℚ) ≤ q) (h2 : q < n + 1) :
    rustTruncNat q = n := by
  have h0 : (0 : ℚ) ≤ q := le_trans (by positivity) h1
  unfold rustTruncNat
  rw [rustTruncZ_of_nonneg q h0]
  have hfl : ⌊q⌋ = (n : ℤ) := by
    rw [Int.floor_eq_iff]
    constructor
    · exact_mod_cast h1
    · push_cast
      exact h2
  rw [hfl]
  exact Int.toNat_natCast n

/-- C8 (amended): away from the debug segment-boundary scanlines, every pixel
written by the rasterizer is exactly the byte-swapped band/phase color of the
specification's classifier, on the startup static tables and any dynamic state
with a non-negative color offset. -/
theorem claim8_band_classification (dyn : RoadDynamic) (map_idx : Nat) (x : ℚ)
    (hm : map_idx < ROAD_DISTANCE) (hoff : 0 ≤ dyn.z_offset)
    (hb : is_seg_boundary build_road_static dyn map_idx = false) :
    render_pixel build_road_static dyn map_idx x
      = bswap32 (spec_band_color build_road_static dyn map_idx x) := by
  have hz : (0 : ℚ) ≤ (build_road_static.z_map.getD map_idx 0 + dyn.z_offset) /
      COLOR_SWITCH_Z_INTERVAL := by
    apply div_nonneg _ (by norm_num [COLOR_SWITCH_Z_INTERVAL])
    have hpos := z_map_entry_pos hm
    rw [build_road_static_z, z_map_game_getD hm]
    linarith
  simp only [render_pixel, spec_band_color, rustAbs_eq_abs, hb, Bool.false_eq_true, if_false]
  rw [rustTruncZ_of_nonneg _ hz]
  congr 1
  by_cases hph : ⌊(build_road_static.z_map.getD map_idx 0 + dyn.z_offset) /
      COLOR_SWITCH_Z_INTERVAL⌋ % 2 = 0
  · simp only [hph, ne_eq, not_true_eq_false, if_false, if_true, ite_true, ite_false,
      apply_ite ShiftableColor.a, add_mul]
  · simp only [if_neg hph, if_pos hph, ne_eq, if_true, ite_true, ite_false,
      apply_ite ShiftableColor.b, add_mul]

/-- On the flat startup state, the scanline mapped to depth row 109 crosses a
segment boundary (depth jumps from `375/27` past `15` to `375/22`), so the
debug segment visualization paints it. -/
theorem flat_boundary_109 : is_seg_boundary build_road_static flat_dyn 109 = true := by
  unfold is_seg_boundary DEBUG_VIS_SEGMENTS
  rw [build_road_static_z, flat_dyn_seg_pos]
  have e : (109 : Nat) - 1 = 108 := rfl
  rw [e]
  rw [z_map_game_getD (by rw [ROAD_DISTANCE_eq]; omega),
    z_map_game_getD (by rw [ROAD_DISTANCE_eq]; omega)]
  have h109 : rustTruncNat ((z_map_entry 109 + 0) / SEGMENT_LENGTH) = 1 := by
    rw [z_map_entry_eq]
    apply rustTruncNat_spec
    · push_cast
      norm_num [SEGMENT_LENGTH]
    · push_cast
      norm_num [SEGMENT_LENGTH]
  have h108 : rustTruncNat ((z_map_entry 108 + 0) / SEGMENT_LENGTH) = 0 := by
    rw [z_map_entry_eq]
    apply rustTruncNat_spec
    · push_cast
      norm_num [SEGMENT_LENGTH]
    · push_cast
      norm_num [SEGMENT_LENGTH]
  rw [h109, h108]
  norm_num

/-- Counterexample to C8 as stated: at the flat state's scanline for depth row
109, pixel column 0 is written the debug boundary green, not the band/phase
color (which would be the off-road tone). -/
theorem claim8_counterexample :
    render_pixel build_road_static flat_dyn 109 0 = bswap32 0x00FF00FF ∧
    spec_band_color build_road_static flat_dyn 109 0 = 0xFFFF91FF ∧
    bswap32 0x00FF00FF ≠ bswap32 0xFFFF91FF := by
  refine ⟨?_, ?_, by decide⟩
  · simp only [render_pixel, flat_boundary_109, if_true]
  · simp only [spec_band_color]
    rw [build_road_static_z, build_road_static_scale, flat_dyn_z_offset]
    rw [z_map_game_getD (by rw [ROAD_DISTANCE_eq]; omega),
      scale_map_game_getD (by rw [ROAD_DISTANCE_eq]; omega),
      flat_dyn_x_getD (by rw [ROAD_DISTANCE_eq]; omega)]
    rw [z_map_entry_eq]
    have habs : |(0 : ℚ) - (FIELD_WIDTH : ℚ) * (1 / 2)| = 160 := by
      rw [abs_of_nonpos (by rw [FIELD_WIDTH_eq]; push_cast; norm_num)]
      rw [FIELD_WIDTH_eq]
      push_cast
      norm_num
    rw [habs]
    have hphase : ⌊(75 / (567 / 5 - ((109 : Nat) : ℚ)) + 0) / COLOR_SWITCH_Z_INTERVAL⌋ = 34 := by
      rw [Int.floor_eq_iff]
      constructor
      · push_cast
        norm_num [COLOR_SWITCH_Z_INTERVAL]
      · push_cast
        norm_num [COLOR_SWITCH_Z_INTERVAL]
    rw [hphase]
    rw [if_neg (by push_cast; norm_num [CENTER_LINE_WIDTH])]
    rw [if_neg (by push_cast; norm_num [PAVEMENT_WIDTH])]
    rw [if_neg (by push_cast; norm_num [PAVEMENT_WIDTH, RUMBLE_STRIP_WIDTH])]
    norm_num
    rfl

/-- On the flat state, the scanline for depth row 5 is not a segment
boundary. -/
theorem flat_not_boundary_5 : is_seg_boundary build_road_static flat_dyn 5 = false := by
  unfold is_seg_boundary
  rw [build_road_static_z, flat_dyn_seg_pos]
  have e : (5 : Nat) - 1 = 4 := rfl
  rw [e]
  rw [z_map_game_getD (by rw [ROAD_DISTANCE_eq]; omega),
    z_map_game_getD (by rw [ROAD_DISTANCE_eq]; omega)]
  have h5 : rustTruncNat ((z_map_entry 5 + 0) / SEGMENT_LENGTH) = 0 := by
    rw [z_map_entry_eq]
    apply rustTruncNat_spec
    · push_cast
      norm_num [SEGMENT_LENGTH]
    · push_cast
      norm_num [SEGMENT_LENGTH]
  have h4 : rustTruncNat ((z_map_entry 4 + 0) / SEGMENT_LENGTH) = 0 := by
    rw [z_map_entry_eq]
    apply rustTruncNat_spec
    · push_cast
      norm_num [SEGMENT_LENGTH]
    · push_cast
      norm_num [SEGMENT_LENGTH]
  rw [h5, h4]
  norm_num

/-- Witness for C8 (amended): the pixel at row 5, column 160 matches the
specification classifier's color. -/
theorem claim8_band_classification_witness :
    render_pixel build_road_static flat_dyn 5 160
      = bswap32 (spec_band_color build_road_static flat_dyn 5 160) :=
  claim8_band_classification flat_dyn 5 160 (by rw [ROAD_DISTANCE_eq]; omega)
    (by rw [flat_dyn_z_offset]) flat_not_boundary_5

/-! ## C2: the projector's segment tracking -/

/-- C2 is a code bug: `map_road_quadratic` neither reduces the in-segment
offset nor loops the check, so once the accumulated offset first exceeds
`SEGMENT_LENGTH` it advances one segment on *every* subsequent row.  On a
six-row table spaced 6 world units apart with segments
`[straight, straight, curve 1000]`, row 4 (depth 24, inside segment 1) already
reads segment 2's curve: the source projector bends the road there
(`6160 ≠ 160`), while the spec-worded projector keeps it straight (`160`). -/
theorem claim2_segment_tracking_bug :
    (map_road_quadratic CURVE_COEFF 160 (fun seg => seg.curve)
        probe_static probe_segs 0 0).getD 4 0 = 6160 ∧
    (map_road_quadratic_specmodel CURVE_COEFF 160 (fun seg => seg.curve)
        probe_static probe_segs 0 0).getD 4 0 = 160 := by
  constructor
  · norm_num [map_road_quadratic, mapQuadGo, get_bounded_seg, probe_static, probe_segs,
      SEGMENT_LENGTH, CURVE_COEFF]
  · norm_num [map_road_quadratic_specmodel, mapQuadSpecGo, segAdvanceGo, rustTruncNat,
      rustTruncZ, get_bounded_seg, probe_static, probe_segs, SEGMENT_LENGTH, CURVE_COEFF]

end Joyride
